import Mathlib

/-!
# ai-auto-decision: the threshold server and the decision loop

A shallow embedding of `cmd/mcp-server/mcp.go` (`loadConfig`, `saveConfig`,
`adjustThreshold`) and of the ticker loop of `cmd/agent/agent.go`.

* `float64` values are rationals: every value that JSON decoding yields is a
  finite `float64`, and the code only compares and copies them.
* The file system is one file, the one at `configPath`, which `loadConfig` and
  `saveConfig` resolve in the same way.
* `encoding/json`, `os`, the chat client and the MCP client are library code.
  The `encoding/json` calls are fields of `EncodingJSON` and `AgentEnv`, the
  outcome of each `os` call is an input (`LoadEnv`, `WriteOutcome`), and what
  the chat client returns is the input of a tick.
* A Go `error` is an `Option String`: `none` is `nil`.
* Concurrent calls of the handler are interleavings of its steps
  (`Handler.step`), with the mutex as a boolean that `mu.Lock()` waits on.
-/

namespace AutoDecision

/-! ## Data model -/

/-- The content of a file: Go's byte slice. -/
abbrev Bytes := List UInt8

/-- The bytes of an ASCII text. -/
def ascii (s : String) : Bytes := s.data.map (fun c => c.toNat.toUInt8)

/-- A decoded JSON value, as `encoding/json` stores it in an empty interface:
`nil`, `bool`, `float64`, `string`, a slice, or a map keyed by strings. -/
inductive Value where
  | null : Value
  | bool (b : Bool) : Value
  | number (x : ℚ) : Value
  | string (s : String) : Value
  | array (xs : List Value) : Value
  | object (kvs : List (String × Value)) : Value

/-- Go's map from strings to decoded values, as a list of bindings. -/
abbrev Arguments := List (String × Value)

/-- The map index expression `m[key]`: the bound value, or `nil` when the key is absent. -/
def Arguments.index (m : Arguments) (key : String) : Value :=
  match m.find? (fun kv => kv.1 == key) with
  | some kv => kv.2
  | none => Value.null

/-- The type assertion `x.(float64)` in its two-result form. -/
def Value.float64 : Value → ℚ × Bool
  | Value.number x => (x, true)
  | _ => (0, false)

/-- The struct `Config` of the server. -/
structure Config where
  CPUAlertThreshold : ℚ
  deriving DecidableEq

/-- The struct `mcp.CallToolResult`: the texts of its content and the error flag. -/
structure CallToolResult where
  Content : List String
  IsError : Bool
  deriving DecidableEq

/-- The constructor `mcp.NewToolResultError`. -/
def NewToolResultError (text : String) : CallToolResult :=
  { Content := [text], IsError := true }

deriving instance DecidableEq for Except

/-- The three `encoding/json` calls of the server. -/
structure EncodingJSON where
  /-- The call `json.MarshalIndent(cfg, "", "  ")`. -/
  MarshalIndent : Config → Except String Bytes
  /-- The call `json.Unmarshal(data, &cfg)` on a zero `Config`. -/
  Unmarshal : Bytes → Except String Config
  /-- The call `json.Marshal(result)` on the result map. -/
  Marshal : Arguments → Except String String

/-- A call of one of the two store functions, recorded when it is entered. -/
inductive StoreCall where
  | load : StoreCall
  | save (cfg : Config) : StoreCall
  deriving DecidableEq

/-- The state the server works on: the file at `configPath` (`none` when it does
not exist) and the record of the store functions entered so far. -/
structure World where
  file : Option Bytes
  calls : List StoreCall
  deriving DecidableEq

/-- How one `os.WriteFile` call ends: it writes all of the data; or it fails
before the file is opened and leaves it as it was; or it fails after the file
was truncated and `written` bytes were written. -/
inductive WriteOutcome where
  | ok : WriteOutcome
  | openFails : WriteOutcome
  | writeFails (written : Nat) : WriteOutcome
  deriving DecidableEq

/-- The outcomes of the `os` calls of one `loadConfig`: whether `os.Stat` fails
with an error other than not-exist, whether `os.ReadFile` fails, and how the
write of the default file ends. -/
structure LoadEnv where
  statFails : Bool
  readFails : Bool
  create : WriteOutcome
  deriving DecidableEq

/-- The outcomes of the `os` calls of one `adjustThreshold`. -/
structure CallEnv where
  load : LoadEnv
  write : WriteOutcome
  deriving DecidableEq

/-! ## The server: `mcp.go` -/

/-- The call `os.WriteFile(configPath, data, 0644)`: the error it returns
and the file afterwards. -/
def WriteFile (o : WriteOutcome) (data : Bytes) (file : Option Bytes) :
    Option String × Option Bytes :=
  match o with
  | WriteOutcome.ok => (none, some data)
  | WriteOutcome.openFails => (some "open failed", file)
  | WriteOutcome.writeFails n => (some "write failed", some (data.take n))

/-- The function `saveConfig`: marshal, then write the file. Returns the error. -/
def saveConfig (J : EncodingJSON) (o : WriteOutcome) (cfg : Config) (w : World) :
    Option String × World :=
  let w1 : World := { w with calls := w.calls ++ [StoreCall.save cfg] }
  match J.MarshalIndent cfg with
  | Except.error err => (some err, w1)
  | Except.ok data =>
    let r := WriteFile o data w1.file
    (r.1, { w1 with file := r.2 })

/-- The function `loadConfig`: the config, the error and the world afterwards.
`os.Stat` reports not-exist exactly when there is no file and it does not fail
in another way. -/
def loadConfig (J : EncodingJSON) (e : LoadEnv) (w : World) :
    Config × Option String × World :=
  let w1 : World := { w with calls := w.calls ++ [StoreCall.load] }
  if w1.file.isNone && !e.statFails then
    let defaultConfig : Config := { CPUAlertThreshold := 80 }
    match saveConfig J e.create defaultConfig w1 with
    | (some _, w2) => (defaultConfig, none, w2)
    | (none, w2) => (defaultConfig, none, w2)
  else
    match (if e.readFails then none else w1.file) with
    | none => ({ CPUAlertThreshold := 80 }, none, w1)
    | some data =>
      match J.Unmarshal data with
      | Except.error _ => ({ CPUAlertThreshold := 80 }, none, w1)
      | Except.ok cfg => (cfg, none, w1)

/-- The tool handler `adjustThreshold`. Its Go error is `nil` on every path, so
only the tool result is returned. The mutex is free when a sequential call
starts and free again when it returns. -/
def adjustThreshold (J : EncodingJSON) (e : CallEnv) (args : Arguments) (w : World) :
    CallToolResult × World :=
  let (value, ok) := (args.index "value").float64
  if !ok then
    (NewToolResultError "parameter 'value' must be a number", w)
  else if value < 0 ∨ value > 100 then
    (NewToolResultError "'value' must be between 0 and 100", w)
  else
    match loadConfig J e.load w with
    | (_, some _, w1) => (NewToolResultError "failed to load config", w1)
    | (cfg, none, w1) =>
      let old := cfg.CPUAlertThreshold
      let cfg1 : Config := { cfg with CPUAlertThreshold := value }
      match saveConfig J e.write cfg1 w1 with
      | (some err, w2) => (NewToolResultError ("failed to save config: " ++ err), w2)
      | (none, w2) =>
        let result : Arguments :=
          [("old_value", Value.number old), ("new_value", Value.number value),
            ("status", Value.string "success")]
        match J.Marshal result with
        | Except.error err => (NewToolResultError ("failed to marshal result: " ++ err), w2)
        | Except.ok jsonResult => ({ Content := [jsonResult], IsError := false }, w2)

/-- A run of the server: the requests are handled one after the other, each
with its own `os` outcomes. -/
def serve (J : EncodingJSON) : List (CallEnv × Arguments) → World → World
  | [], w => w
  | (e, args) :: rest, w => serve J rest (adjustThreshold J e args w).2

/-! ## Concurrent calls of the handler -/

/-- Where one call of `adjustThreshold` stands: entered with its arguments;
validated and at `mu.Lock()`; holding the mutex before `loadConfig`; holding it
after `loadConfig`; holding it with the result built, before the deferred
`mu.Unlock()`; returned. -/
inductive Handler where
  | entered (args : Arguments) : Handler
  | atLock (value : ℚ) : Handler
  | locked (value : ℚ) : Handler
  | loaded (value : ℚ) (cfg : Config) : Handler
  | saved (result : CallToolResult) : Handler
  | returned (result : CallToolResult) : Handler

/-- One step of a call of `adjustThreshold`, on the mutex (`true` when it is
locked) and the world. A call at `mu.Lock()` stays there while the mutex is locked. -/
def Handler.step (J : EncodingJSON) (e : CallEnv) (h : Handler) (mu : Bool) (w : World) :
    Handler × Bool × World :=
  match h with
  | Handler.entered args =>
    let (value, ok) := (args.index "value").float64
    if !ok then
      (Handler.returned (NewToolResultError "parameter 'value' must be a number"), mu, w)
    else if value < 0 ∨ value > 100 then
      (Handler.returned (NewToolResultError "'value' must be between 0 and 100"), mu, w)
    else (Handler.atLock value, mu, w)
  | Handler.atLock value =>
    if mu then (Handler.atLock value, mu, w) else (Handler.locked value, true, w)
  | Handler.locked value =>
    match loadConfig J e.load w with
    | (_, some _, w1) => (Handler.saved (NewToolResultError "failed to load config"), mu, w1)
    | (cfg, none, w1) => (Handler.loaded value cfg, mu, w1)
  | Handler.loaded value cfg =>
    let old := cfg.CPUAlertThreshold
    let cfg1 : Config := { cfg with CPUAlertThreshold := value }
    match saveConfig J e.write cfg1 w with
    | (some err, w2) =>
      (Handler.saved (NewToolResultError ("failed to save config: " ++ err)), mu, w2)
    | (none, w2) =>
      let result : Arguments :=
        [("old_value", Value.number old), ("new_value", Value.number value),
          ("status", Value.string "success")]
      match J.Marshal result with
      | Except.error err =>
        (Handler.saved (NewToolResultError ("failed to marshal result: " ++ err)), mu, w2)
      | Except.ok jsonResult =>
        (Handler.saved { Content := [jsonResult], IsError := false }, mu, w2)
  | Handler.saved result => (Handler.returned result, false, w)
  | Handler.returned result => (Handler.returned result, mu, w)

/-- The server with two calls of the handler in flight. -/
structure Server where
  world : World
  mu : Bool
  first : Handler
  second : Handler

/-- One step of the server: the scheduler picks the second call or the first. -/
def Server.step (J : EncodingJSON) (e1 e2 : CallEnv) (pickSecond : Bool) (s : Server) : Server :=
  if pickSecond then
    let r := Handler.step J e2 s.second s.mu s.world
    { s with second := r.1, mu := r.2.1, world := r.2.2 }
  else
    let r := Handler.step J e1 s.first s.mu s.world
    { s with first := r.1, mu := r.2.1, world := r.2.2 }

/-- The server under a schedule: the list says which call takes each step. -/
def Server.run (J : EncodingJSON) (e1 e2 : CallEnv) : List Bool → Server → Server
  | [], s => s
  | b :: rest, s => Server.run J e1 e2 rest (Server.step J e1 e2 b s)

/-- The server when both calls have just been entered. -/
def Server.start (w : World) (args1 args2 : Arguments) : Server :=
  { world := w, mu := false, first := Handler.entered args1, second := Handler.entered args2 }

/-- The struct `openai.FunctionCall`: the name and the arguments text. -/
structure FunctionCall where
  Name : String
  Arguments : String
  deriving DecidableEq

/-- The struct `openai.ToolCall`. -/
structure ToolCall where
  Function : FunctionCall
  deriving DecidableEq

/-- The struct `openai.ChatCompletionMessage`. -/
structure ChatCompletionMessage where
  ToolCalls : List ToolCall
  deriving DecidableEq

/-- The struct `openai.ChatCompletionChoice`. -/
structure ChatCompletionChoice where
  Message : ChatCompletionMessage
  deriving DecidableEq

/-- The struct `openai.ChatCompletionResponse`. -/
structure ChatCompletionResponse where
  Choices : List ChatCompletionChoice
  deriving DecidableEq

/-- The struct `mcp.CallToolParams`. -/
structure CallToolParams where
  Name : String
  Arguments : Arguments

/-- The libraries the loop calls: `json.Unmarshal` of an arguments text into a
map, and `mcpCli.CallTool`, which acts on the far side `σ`. -/
structure AgentEnv (σ : Type) where
  Unmarshal : String → Except String Arguments
  CallTool : CallToolParams → σ → Except String CallToolResult × σ

/-- The state of the loop: the far side of the MCP session and the requests
handed to `mcpCli.CallTool` so far. -/
structure Agent (σ : Type) where
  remote : σ
  issued : List CallToolParams

/-- The body of the loop over `msg.ToolCalls`, for one tool call. Both outcomes
of `CallTool` are logged and nothing else. -/
def dispatch {σ : Type} (E : AgentEnv σ) (a : Agent σ) (tc : ToolCall) : Agent σ :=
  if tc.Function.Name = "adjust_cpu_threshold" then
    match E.Unmarshal tc.Function.Arguments with
    | Except.error _ => a
    | Except.ok args =>
      let params : CallToolParams := { Name := tc.Function.Name, Arguments := args }
      match E.CallTool params a.remote with
      | (Except.error _, remote) => { remote := remote, issued := a.issued ++ [params] }
      | (Except.ok _, remote) => { remote := remote, issued := a.issued ++ [params] }
  else a

/-- One pass of the body of `for range ticker.C`, given what
`llmClient.CreateChatCompletion` returned. `Except.error` is a run-time
panic, which ends the process. -/
def tick {σ : Type} (E : AgentEnv σ) (response : Except String ChatCompletionResponse)
    (a : Agent σ) : Except String (Agent σ) :=
  match response with
  | Except.error _ => Except.ok a
  | Except.ok resp =>
    match resp.Choices with
    | [] => Except.error "index out of range [0] with length 0"
    | choice :: _ =>
      let msg := choice.Message
      if msg.ToolCalls.length > 0 then
        Except.ok (msg.ToolCalls.foldl (dispatch E) a)
      else Except.ok a

/-- The loop `for range ticker.C`, over what the chat client returns tick by tick. -/
def loop {σ : Type} (E : AgentEnv σ) :
    List (Except String ChatCompletionResponse) → Agent σ → Except String (Agent σ)
  | [], a => Except.ok a
  | response :: rest, a =>
    match tick E response a with
    | Except.error p => Except.error p
    | Except.ok a1 => loop E rest a1

/-! ## Notions the properties are stated with -/

/-- The threshold the file holds: the field of the config its content decodes
to, `none` when there is no file or its content does not decode. -/
def persisted (J : EncodingJSON) (w : World) : Option ℚ :=
  match w.file with
  | none => none
  | some data =>
    match J.Unmarshal data with
    | Except.ok cfg => some cfg.CPUAlertThreshold
    | Except.error _ => none

/-- Decoding gives back the config that was encoded. -/
def EncodingJSON.RoundTrip (J : EncodingJSON) : Prop :=
  ∀ cfg data, J.MarshalIndent cfg = Except.ok data → J.Unmarshal data = Except.ok cfg

/-- An encoded config that was cut short does not decode. -/
def EncodingJSON.CutRejected (J : EncodingJSON) : Prop :=
  ∀ cfg data n, J.MarshalIndent cfg = Except.ok data → n < data.length →
    ∃ err, J.Unmarshal (data.take n) = Except.error err

/-- Whatever threshold the file holds lies between 0 and 100. -/
def Safe (J : EncodingJSON) (w : World) : Prop :=
  ∀ t, persisted J w = some t → 0 ≤ t ∧ t ≤ 100

/-- How far a call has come, from 0 (entered) to 5 (returned). -/
def Handler.rank : Handler → Nat
  | Handler.entered _ => 0
  | Handler.atLock _ => 1
  | Handler.locked _ => 2
  | Handler.loaded _ _ => 3
  | Handler.saved _ => 4
  | Handler.returned _ => 5

/-- Whether the call holds the mutex. -/
def Handler.holds : Handler → Bool
  | Handler.locked _ => true
  | Handler.loaded _ _ => true
  | Handler.saved _ => true
  | _ => false

/-- The indented text of the config with threshold 80. -/
def text80 : Bytes := ascii "\x7b\n  \"cpu_alert_threshold\": 80\n\x7d"

/-- The indented text of the config with threshold 90. -/
def text90 : Bytes := ascii "\x7b\n  \"cpu_alert_threshold\": 90\n\x7d"

/-- The decimal text of the two numbers the sample knows. -/
def sampleNumber (x : ℚ) : Option String :=
  if x = 80 then some "80" else if x = 90 then some "90" else none

/-- A sample of `encoding/json` on the server: it encodes the thresholds 80 and
90 and the result maps over these two numbers (keys in sorted order, as Go
writes a map), and decodes the two config texts. Every other text is answered
as a text that ends early is. -/
def sampleJSON : EncodingJSON where
  MarshalIndent cfg :=
    if cfg.CPUAlertThreshold = 80 then Except.ok text80
    else if cfg.CPUAlertThreshold = 90 then Except.ok text90
    else Except.error "json: unsupported value"
  Unmarshal data :=
    if data = text80 then Except.ok { CPUAlertThreshold := 80 }
    else if data = text90 then Except.ok { CPUAlertThreshold := 90 }
    else Except.error "unexpected end of JSON input"
  Marshal m :=
    match m with
    | [("old_value", Value.number o), ("new_value", Value.number n),
        ("status", Value.string s)] =>
      match sampleNumber o, sampleNumber n with
      | some so, some sn =>
        Except.ok ("\x7b\"new_value\":" ++ sn ++ ",\"old_value\":" ++ so ++
          ",\"status\":\"" ++ s ++ "\"\x7d")
      | _, _ => Except.error "json: unsupported value"
    | _ => Except.error "json: unsupported value"

/-- The `os` outcomes of a call in which nothing fails. -/
def noFault : CallEnv := ⟨⟨false, false, WriteOutcome.ok⟩, WriteOutcome.ok⟩

theorem sampleJSON_roundTrip : sampleJSON.RoundTrip := by
  intro cfg data h
  simp only [sampleJSON] at h ⊢
  obtain ⟨t⟩ := cfg
  by_cases h80 : t = 80
  · subst h80; simp at h; subst h; decide
  · by_cases h90 : t = 90
    · subst h90; simp at h; subst h; decide
    · simp [h80, h90] at h

theorem sampleJSON_cutRejected : sampleJSON.CutRejected := by
  intro cfg data n h hn
  simp only [sampleJSON] at h ⊢
  obtain ⟨t⟩ := cfg
  by_cases h80 : t = 80
  · subst h80; simp at h; subst h
    have : n < 31 := hn
    interval_cases n <;> exact ⟨"unexpected end of JSON input", by decide⟩
  · by_cases h90 : t = 90
    · subst h90; simp at h; subst h
      have : n < 31 := hn
      interval_cases n <;> exact ⟨"unexpected end of JSON input", by decide⟩
    · simp [h80, h90] at h

theorem saveConfig_file (J : EncodingJSON) (o : WriteOutcome) (cfg : Config) (w : World) :
    (saveConfig J o cfg w).2.file = w.file ∨
      ∃ data n, J.MarshalIndent cfg = Except.ok data ∧
        (saveConfig J o cfg w).2.file = some (data.take n) := by
  unfold saveConfig
  cases hm : J.MarshalIndent cfg with
  | error err => left; rfl
  | ok data =>
    cases o with
    | ok => right; exact ⟨data, data.length, rfl, by simp [WriteFile]⟩
    | openFails => left; rfl
    | writeFails n => right; exact ⟨data, n, rfl, rfl⟩

theorem saveConfig_ok (J : EncodingJSON) (cfg : Config) (w : World) (data : Bytes)
    (hm : J.MarshalIndent cfg = Except.ok data) :
    saveConfig J WriteOutcome.ok cfg w =
      (none, { file := some data, calls := w.calls ++ [StoreCall.save cfg] }) := by
  simp [saveConfig, hm, WriteFile]

theorem loadConfig_error (J : EncodingJSON) (e : LoadEnv) (w : World) :
    (loadConfig J e w).2.1 = none := by
  unfold loadConfig
  simp only
  split
  · split <;> rfl
  · split
    · rfl
    · split <;> rfl

theorem loadConfig_existing (J : EncodingJSON) (e : LoadEnv) (w : World) (data : Bytes)
    (hf : w.file = some data) :
    (loadConfig J e w).2.2 = { w with calls := w.calls ++ [StoreCall.load] } := by
  unfold loadConfig
  simp only [hf, Option.isNone_some, Bool.false_and]
  cases e.readFails
  · simp only [Bool.false_eq_true, if_false]
    cases J.Unmarshal data <;> rfl
  · rfl

theorem index_absent (args : Arguments) (key : String) (h : ∀ kv ∈ args, kv.1 ≠ key) :
    args.index key = Value.null := by
  unfold Arguments.index
  have : args.find? (fun kv => kv.1 == key) = none := by
    rw [List.find?_eq_none]
    intro kv hkv
    simpa using h kv hkv
  rw [this]

/-! ## C1 to C3: one call of the handler -/

/-- C2: a number below 0 or above 100 is rejected with the range message, and the state
(the file and the record of store calls) is left as it was: nothing was loaded or saved -/
theorem adjustThreshold_out_of_range (J : EncodingJSON) (e : CallEnv) (args : Arguments)
    (v : ℚ) (hargs : args.index "value" = Value.number v) (hv : v < 0 ∨ v > 100)
    (w : World) :
    adjustThreshold J e args w =
      ({ Content := ["'value' must be between 0 and 100"], IsError := true }, w) := by
  simp [adjustThreshold, hargs, Value.float64, hv, NewToolResultError]

/-- A case of C2: the value 150 on a file that holds 80 -/
theorem adjustThreshold_out_of_range_witness :
    ((150 : ℚ) < 0 ∨ (150 : ℚ) > 100) ∧
      adjustThreshold sampleJSON noFault [("value", Value.number 150)] ⟨some text80, []⟩ =
        ({ Content := ["'value' must be between 0 and 100"], IsError := true },
          ⟨some text80, []⟩) :=
  ⟨Or.inr (by norm_num),
    adjustThreshold_out_of_range sampleJSON noFault [("value", Value.number 150)] 150 rfl
      (Or.inr (by norm_num)) ⟨some text80, []⟩⟩

/-- C3: when the key `value` is absent, or bound to anything but a number, the call is
rejected with the type message, and the state is left as it was: nothing was loaded or saved -/
theorem adjustThreshold_not_a_number (J : EncodingJSON) (e : CallEnv) (args : Arguments)
    (hargs : (∀ kv ∈ args, kv.1 ≠ "value") ∨ (∀ x, args.index "value" ≠ Value.number x))
    (w : World) :
    adjustThreshold J e args w =
      ({ Content := ["parameter 'value' must be a number"], IsError := true }, w) := by
  have hnot : ∀ x, args.index "value" ≠ Value.number x := by
    rcases hargs with h | h
    · intro x; rw [index_absent args "value" h]; exact fun h1 => Value.noConfusion h1
    · exact h
  have hok : (args.index "value").float64.2 = false := by
    cases hval : args.index "value" with
    | number x => exact absurd hval (hnot x)
    | _ => rfl
  simp [adjustThreshold, hok, NewToolResultError]

/-- A case of C3: the key `value` bound to a string -/
theorem adjustThreshold_not_a_number_witness :
    (∀ x, Arguments.index [("value", Value.string "ninety")] "value" ≠ Value.number x) ∧
      adjustThreshold sampleJSON noFault [("value", Value.string "ninety")]
          ⟨some text80, []⟩ =
        ({ Content := ["parameter 'value' must be a number"], IsError := true },
          ⟨some text80, []⟩) :=
  ⟨fun _ h => Value.noConfusion h,
    adjustThreshold_not_a_number sampleJSON noFault [("value", Value.string "ninety")]
      (Or.inr (fun _ h => Value.noConfusion h)) ⟨some text80, []⟩⟩

/-! ## C5, C6: `loadConfig` -/

/-- C5: with no file, `loadConfig` returns the default 80 and a nil error, and when
`os.Stat` reports that the file does not exist and the write succeeds, the file exists
afterwards and holds the encoded default -/
theorem loadConfig_cold_start (J : EncodingJSON) (e : LoadEnv) (w : World)
    (hfile : w.file = none) :
    (loadConfig J e w).1 = { CPUAlertThreshold := 80 } ∧ (loadConfig J e w).2.1 = none ∧
      (e.statFails = false → e.create = WriteOutcome.ok →
        ∀ data, J.MarshalIndent { CPUAlertThreshold := 80 } = Except.ok data →
          (loadConfig J e w).2.2.file = some data ∧
          (J.RoundTrip → persisted J (loadConfig J e w).2.2 = some 80)) := by
  obtain ⟨file, calls⟩ := w
  simp only at hfile
  subst hfile
  refine ⟨?_, loadConfig_error J e _, ?_⟩
  · unfold loadConfig
    cases hs : e.statFails
    · simp only [Option.isNone_none, Bool.not_false, Bool.and_self, if_true]
      split <;> rfl
    · cases e.readFails <;> simp
  · intro hs hc data hm
    have hload : loadConfig J e ⟨none, calls⟩ =
        ({ CPUAlertThreshold := 80 }, none,
          ⟨some data, calls ++ [StoreCall.load] ++ [StoreCall.save ⟨80⟩]⟩) := by
      simp [loadConfig, hs, hc, saveConfig_ok J _ _ data hm]
    rw [hload]
    refine ⟨rfl, fun hJ => ?_⟩
    simp [persisted, hJ _ _ hm]

/-- A case of C5: a cold start in which nothing fails -/
theorem loadConfig_cold_start_witness :
    (⟨none, []⟩ : World).file = none ∧
      loadConfig sampleJSON noFault.load ⟨none, []⟩ =
        (⟨80⟩, none, ⟨some text80, [StoreCall.load, StoreCall.save ⟨80⟩]⟩) ∧
      (loadConfig sampleJSON noFault.load ⟨none, []⟩).2.2.file = some text80 ∧
      persisted sampleJSON (loadConfig sampleJSON noFault.load ⟨none, []⟩).2.2 = some 80 :=
  ⟨rfl, by decide,
    ((loadConfig_cold_start sampleJSON noFault.load ⟨none, []⟩ rfl).2.2 rfl rfl text80
      (by decide)).1,
    ((loadConfig_cold_start sampleJSON noFault.load ⟨none, []⟩ rfl).2.2 rfl rfl text80
      (by decide)).2 sampleJSON_roundTrip⟩

/-- C6: when the file exists and its content does not decode, `loadConfig` returns the
default 80 and a nil error, and leaves the file as it is, without calling `saveConfig` -/
theorem loadConfig_corrupt (J : EncodingJSON) (e : LoadEnv) (w : World) (data : Bytes)
    (err : String) (hfile : w.file = some data) (hbad : J.Unmarshal data = Except.error err) :
    (loadConfig J e w).1 = { CPUAlertThreshold := 80 } ∧ (loadConfig J e w).2.1 = none ∧
      (loadConfig J e w).2.2.file = some data ∧
      (loadConfig J e w).2.2.calls = w.calls ++ [StoreCall.load] := by
  rw [loadConfig_existing J e w data hfile]
  refine ⟨?_, loadConfig_error J e w, hfile, rfl⟩
  unfold loadConfig
  simp only [hfile, Option.isNone_some, Bool.false_and]
  cases e.readFails <;> simp [hbad]

/-- A case of C6: a file that holds a config text cut short -/
theorem loadConfig_corrupt_witness :
    sampleJSON.Unmarshal (ascii "\x7b\n  \"cpu_alert") =
        Except.error "unexpected end of JSON input" ∧
      (loadConfig sampleJSON noFault.load ⟨some (ascii "\x7b\n  \"cpu_alert"), []⟩).1 = ⟨80⟩ ∧
      (loadConfig sampleJSON noFault.load ⟨some (ascii "\x7b\n  \"cpu_alert"), []⟩).2.1 = none ∧
      (loadConfig sampleJSON noFault.load ⟨some (ascii "\x7b\n  \"cpu_alert"), []⟩).2.2.file =
        some (ascii "\x7b\n  \"cpu_alert") ∧
      (loadConfig sampleJSON noFault.load ⟨some (ascii "\x7b\n  \"cpu_alert"), []⟩).2.2.calls =
        [] ++ [StoreCall.load] :=
  ⟨by decide,
    loadConfig_corrupt sampleJSON noFault.load ⟨some (ascii "\x7b\n  \"cpu_alert"), []⟩
      (ascii "\x7b\n  \"cpu_alert") "unexpected end of JSON input" rfl (by decide)⟩

/-! ## C4: the range of the persisted threshold -/

theorem safe_of_file_eq (J : EncodingJSON) (w w1 : World) (h : w1.file = w.file)
    (hs : Safe J w) : Safe J w1 := by
  intro t ht
  apply hs t
  simpa [persisted, h] using ht

theorem safe_of_written (J : EncodingJSON) (hJ : J.RoundTrip) (hC : J.CutRejected)
    (cfg : Config) (hr : 0 ≤ cfg.CPUAlertThreshold ∧ cfg.CPUAlertThreshold ≤ 100)
    (data : Bytes) (n : Nat) (hm : J.MarshalIndent cfg = Except.ok data) (w : World)
    (hf : w.file = some (data.take n)) : Safe J w := by
  intro t ht
  by_cases hn : n < data.length
  · obtain ⟨err, herr⟩ := hC cfg data n hm hn
    simp [persisted, hf, herr] at ht
  · have hfull : data.take n = data := List.take_of_length_le (not_lt.mp hn)
    rw [hfull] at hf
    have : cfg.CPUAlertThreshold = t := by simpa [persisted, hf, hJ _ _ hm] using ht
    rw [← this]
    exact hr

theorem saveConfig_safe (J : EncodingJSON) (hJ : J.RoundTrip) (hC : J.CutRejected)
    (o : WriteOutcome) (cfg : Config)
    (hr : 0 ≤ cfg.CPUAlertThreshold ∧ cfg.CPUAlertThreshold ≤ 100) (w : World)
    (hs : Safe J w) : Safe J (saveConfig J o cfg w).2 := by
  rcases saveConfig_file J o cfg w with h | ⟨data, n, hm, h⟩
  · exact safe_of_file_eq J w _ h hs
  · exact safe_of_written J hJ hC cfg hr data n hm _ h

theorem loadConfig_safe (J : EncodingJSON) (hJ : J.RoundTrip) (hC : J.CutRejected)
    (e : LoadEnv) (w : World) (hs : Safe J w) :
    Safe J (loadConfig J e w).2.2 ∧
      0 ≤ (loadConfig J e w).1.CPUAlertThreshold ∧
      (loadConfig J e w).1.CPUAlertThreshold ≤ 100 := by
  have h80 : (0 : ℚ) ≤ 80 ∧ (80 : ℚ) ≤ 100 := by norm_num
  have hs1 : Safe J { w with calls := w.calls ++ [StoreCall.load] } :=
    safe_of_file_eq J w _ rfl hs
  unfold loadConfig
  simp only
  split
  · have := saveConfig_safe J hJ hC e.create ⟨80⟩ h80 _ hs1
    split <;> rename_i heq <;> rw [heq] at this <;> exact ⟨this, h80⟩
  · split
    · exact ⟨hs1, h80⟩
    · rename_i data hdata
      split
      · exact ⟨hs1, h80⟩
      · rename_i cfg hcfg
        refine ⟨hs1, ?_⟩
        apply hs cfg.CPUAlertThreshold
        have hfile : w.file = some data := by
          cases hr : e.readFails <;> simp [hr] at hdata
          exact hdata
        simp [persisted, hfile, hcfg]

theorem adjustThreshold_safe (J : EncodingJSON) (hJ : J.RoundTrip) (hC : J.CutRejected)
    (e : CallEnv) (args : Arguments) (w : World) (hs : Safe J w) :
    Safe J (adjustThreshold J e args w).2 := by
  unfold adjustThreshold
  simp only
  split
  · exact hs
  · split
    · exact hs
    · rename_i hrange
      have hr : 0 ≤ (args.index "value").float64.1 ∧ (args.index "value").float64.1 ≤ 100 := by
        constructor
        · exact not_lt.mp (fun h => hrange (Or.inl h))
        · exact not_lt.mp (fun h => hrange (Or.inr h))
      have hl := (loadConfig_safe J hJ hC e.load w hs).1
      split
      · rename_i heq; rw [heq] at hl; exact hl
      · rename_i cfg w1 heq
        rw [heq] at hl
        have := saveConfig_safe J hJ hC e.write ⟨(args.index "value").float64.1⟩ hr _ hl
        split
        · rename_i heq2; rw [heq2] at this; exact this
        · rename_i heq2; rw [heq2] at this
          split <;> exact this

theorem serve_safe (J : EncodingJSON) (hJ : J.RoundTrip) (hC : J.CutRejected)
    (reqs : List (CallEnv × Arguments)) (w : World) (hs : Safe J w) :
    Safe J (serve J reqs w) := by
  induction reqs generalizing w with
  | nil => exact hs
  | cons r rest ih =>
    obtain ⟨e, args⟩ := r
    exact ih _ (adjustThreshold_safe J hJ hC e args w hs)

/-- C4: from a cold start or a persisted threshold in [0,100], after any sequence of
calls of the handler, with any arguments and any outcomes of the `os` calls, whatever
threshold the file holds is in [0,100], and so is the threshold that `loadConfig` then
returns -/
theorem threshold_stays_in_range (J : EncodingJSON) (hJ : J.RoundTrip)
    (hC : J.CutRejected) (w : World)
    (hw : w.file = none ∨ ∃ t, persisted J w = some t ∧ 0 ≤ t ∧ t ≤ 100)
    (reqs : List (CallEnv × Arguments)) :
    (∀ t, persisted J (serve J reqs w) = some t → 0 ≤ t ∧ t ≤ 100) ∧
      ∀ e, 0 ≤ (loadConfig J e (serve J reqs w)).1.CPUAlertThreshold ∧
        (loadConfig J e (serve J reqs w)).1.CPUAlertThreshold ≤ 100 := by
  have hs : Safe J w := by
    intro t ht
    rcases hw with h | ⟨t1, h1, hr⟩
    · simp [persisted, h] at ht
    · rw [h1] at ht
      cases ht
      exact hr
  have hfin := serve_safe J hJ hC reqs w hs
  exact ⟨hfin, fun e => (loadConfig_safe J hJ hC e _ hfin).2⟩

/-- A case of C4: from a cold start, a call with 90, a call with 80 whose write stops
after three bytes, a call with 500 and a call without a value -/
theorem threshold_stays_in_range_witness :
    (⟨none, []⟩ : World).file = none ∧
      ((∀ t, persisted sampleJSON (serve sampleJSON
          [(noFault, [("value", Value.number 90)]),
            (⟨noFault.load, WriteOutcome.writeFails 3⟩, [("value", Value.number 80)]),
            (noFault, [("value", Value.number 500)]), (noFault, [])] ⟨none, []⟩) = some t →
          0 ≤ t ∧ t ≤ 100) ∧
        ∀ e, 0 ≤ (loadConfig sampleJSON e (serve sampleJSON
            [(noFault, [("value", Value.number 90)]),
              (⟨noFault.load, WriteOutcome.writeFails 3⟩, [("value", Value.number 80)]),
              (noFault, [("value", Value.number 500)]), (noFault, [])]
            ⟨none, []⟩)).1.CPUAlertThreshold ∧
          (loadConfig sampleJSON e (serve sampleJSON
            [(noFault, [("value", Value.number 90)]),
              (⟨noFault.load, WriteOutcome.writeFails 3⟩, [("value", Value.number 80)]),
              (noFault, [("value", Value.number 500)]), (noFault, [])]
            ⟨none, []⟩)).1.CPUAlertThreshold ≤ 100) :=
  ⟨rfl,
    threshold_stays_in_range sampleJSON sampleJSON_roundTrip sampleJSON_cutRejected
      ⟨none, []⟩ (Or.inl rfl) _⟩

/-! ## C8: what a save does to the file -/

/-- C8 as stated fails: when 90 is saved over a file that holds 80 and the write stops
after five bytes, `saveConfig` leaves the file with those five bytes, which are neither
the old nor the new content, and a load then finds a text that does not decode -/
theorem saveConfig_not_atomic :
    sampleJSON.MarshalIndent { CPUAlertThreshold := 90 } = Except.ok text90 ∧
      saveConfig sampleJSON (WriteOutcome.writeFails 5) { CPUAlertThreshold := 90 }
          ⟨some text80, []⟩ =
        (some "write failed", ⟨some (ascii "\x7b\n  \""), [StoreCall.save ⟨90⟩]⟩) ∧
      some (ascii "\x7b\n  \"") ≠ some text80 ∧ some (ascii "\x7b\n  \"") ≠ some text90 ∧
      sampleJSON.Unmarshal (ascii "\x7b\n  \"") =
        Except.error "unexpected end of JSON input" ∧
      persisted sampleJSON (saveConfig sampleJSON (WriteOutcome.writeFails 5)
        { CPUAlertThreshold := 90 } ⟨some text80, []⟩).2 = none ∧
      ¬ ((saveConfig sampleJSON (WriteOutcome.writeFails 5) { CPUAlertThreshold := 90 }
            ⟨some text80, []⟩).2.file = some text80 ∨
          (saveConfig sampleJSON (WriteOutcome.writeFails 5) { CPUAlertThreshold := 90 }
            ⟨some text80, []⟩).2.file = some text90) := by
  refine ⟨by decide, by decide, by decide, by decide, by decide, by decide, by decide⟩

/-- C8, amended: `saveConfig` writes straight to the file. A save whose write completes
leaves the whole new text; a save whose write stops after `n` bytes returns an error and
leaves the first `n` bytes of the new text, whatever the file held; a save that fails
before the file is opened returns an error and leaves the file as it was; and after a
write that stopped short of the whole text, the file holds no threshold and a load
returns the default 80 -/
theorem saveConfig_outcomes (J : EncodingJSON) (cfg : Config) (w : World)
    (data : Bytes) (hm : J.MarshalIndent cfg = Except.ok data) :
    saveConfig J WriteOutcome.ok cfg w =
        (none, ⟨some data, w.calls ++ [StoreCall.save cfg]⟩) ∧
      (∀ n, (saveConfig J (WriteOutcome.writeFails n) cfg w).1 ≠ none ∧
        (saveConfig J (WriteOutcome.writeFails n) cfg w).2.file = some (data.take n)) ∧
      ((saveConfig J WriteOutcome.openFails cfg w).1 ≠ none ∧
        (saveConfig J WriteOutcome.openFails cfg w).2.file = w.file) ∧
      (J.CutRejected → ∀ n, n < data.length →
        persisted J (saveConfig J (WriteOutcome.writeFails n) cfg w).2 = none ∧
        ∀ e, (loadConfig J e (saveConfig J (WriteOutcome.writeFails n) cfg w).2).1 =
          { CPUAlertThreshold := 80 }) := by
  refine ⟨saveConfig_ok J cfg w data hm, ?_, ?_, ?_⟩
  · intro n
    simp [saveConfig, hm, WriteFile]
  · simp [saveConfig, hm, WriteFile]
  · intro hC n hn
    obtain ⟨err, herr⟩ := hC cfg data n hm hn
    have hw : saveConfig J (WriteOutcome.writeFails n) cfg w =
        (some "write failed", ⟨some (data.take n), w.calls ++ [StoreCall.save cfg]⟩) := by
      simp [saveConfig, hm, WriteFile]
    rw [hw]
    refine ⟨by simp [persisted, herr], fun e => ?_⟩
    unfold loadConfig
    cases e.readFails <;> simp [herr]

/-- A case of C8 as amended: 90 saved over a file that holds 80 -/
theorem saveConfig_outcomes_witness :
    sampleJSON.MarshalIndent { CPUAlertThreshold := 90 } = Except.ok text90 ∧
      (saveConfig sampleJSON WriteOutcome.ok ⟨90⟩ ⟨some text80, []⟩ =
          (none, ⟨some text90, [] ++ [StoreCall.save ⟨90⟩]⟩) ∧
        (∀ n, (saveConfig sampleJSON (WriteOutcome.writeFails n) ⟨90⟩
              ⟨some text80, []⟩).1 ≠ none ∧
          (saveConfig sampleJSON (WriteOutcome.writeFails n) ⟨90⟩ ⟨some text80, []⟩).2.file =
            some (text90.take n)) ∧
        ((saveConfig sampleJSON WriteOutcome.openFails ⟨90⟩ ⟨some text80, []⟩).1 ≠ none ∧
          (saveConfig sampleJSON WriteOutcome.openFails ⟨90⟩ ⟨some text80, []⟩).2.file =
            some text80) ∧
        (sampleJSON.CutRejected → ∀ n, n < text90.length →
          persisted sampleJSON (saveConfig sampleJSON (WriteOutcome.writeFails n) ⟨90⟩
            ⟨some text80, []⟩).2 = none ∧
          ∀ e, (loadConfig sampleJSON e (saveConfig sampleJSON (WriteOutcome.writeFails n)
            ⟨90⟩ ⟨some text80, []⟩).2).1 = ⟨80⟩)) :=
  ⟨by decide, saveConfig_outcomes sampleJSON ⟨90⟩ ⟨some text80, []⟩ text90 (by decide)⟩

/-! ## C9, C10: the loop of the agent -/

/-- C9: a response without choices, returned with a nil error, makes the tick panic on
`resp.Choices[0]`, and the loop ends there whatever would follow; an error return is
skipped: the tick issues nothing and the loop goes on to the next tick -/
theorem tick_no_choices_panics {σ : Type} (E : AgentEnv σ) (a : Agent σ) (err : String)
    (rest : List (Except String ChatCompletionResponse)) :
    tick E (Except.ok { Choices := [] }) a =
        Except.error "index out of range [0] with length 0" ∧
      loop E (Except.ok { Choices := [] } :: rest) a =
        Except.error "index out of range [0] with length 0" ∧
      tick E (Except.error err) a = Except.ok a ∧
      loop E (Except.error err :: rest) a = loop E rest a :=
  ⟨rfl, rfl, rfl, rfl⟩

/-- Run alone, a call goes through its steps to the result and the world that
`adjustThreshold` gives, and leaves the mutex free. -/
theorem solo_call_agrees (J : EncodingJSON) (e1 e2 : CallEnv) (args1 args2 : Arguments)
    (w : World) :
    (Server.run J e1 e2 (List.replicate 5 false) (Server.start w args1 args2)).first =
        Handler.returned (adjustThreshold J e1 args1 w).1 ∧
      (Server.run J e1 e2 (List.replicate 5 false) (Server.start w args1 args2)).world =
        (adjustThreshold J e1 args1 w).2 ∧
      (Server.run J e1 e2 (List.replicate 5 false) (Server.start w args1 args2)).mu = false := by
  simp only [List.replicate, Server.run, Server.step, Server.start, Bool.false_eq_true,
    if_false, adjustThreshold]
  rcases hv : (args1.index "value").float64 with ⟨value, ok⟩
  cases ok
  · simp [Handler.step, hv]
  · by_cases hrange : value < 0 ∨ value > 100
    · simp [Handler.step, hv, hrange]
    · rcases hl : loadConfig J e1.load w with ⟨cfg, err, w1⟩
      cases err with
      | some err => simp [Handler.step, hv, hrange, hl]
      | none =>
        rcases hs : saveConfig J e1.write { cfg with CPUAlertThreshold := value } w1 with
          ⟨serr, w2⟩
        cases serr with
        | some serr => simp [Handler.step, hv, hrange, hl, hs]
        | none =>
          cases hm : J.Marshal [("old_value", Value.number cfg.CPUAlertThreshold),
              ("new_value", Value.number value), ("status", Value.string "success")] <;>
            simp [Handler.step, hv, hrange, hl, hs, hm]

theorem rank_le (h : Handler) : h.rank ≤ 5 := by
  cases h <;> simp [Handler.rank]

theorem holds_rank (h : Handler) (hh : h.holds = true) : h.rank ≠ 1 := by
  cases h <;> simp [Handler.holds] at hh <;> simp [Handler.rank]

end AutoDecision
